import Mathlib

/-!
Verification development for the fxblue-etl ingestion pipelines
(`src/CSV PARSER/gcp_csv.py`, `src/gcp_rss.py`, `src/RSS PARSER/rss_parser.py`).

The embedding keeps the source's control flow and field lists.  Python
numeric values are carried as rationals (the claims concern null-vs-value
vs exception behaviour, never floating-point rounding), Python exceptions
are an explicit `Except` layer, and the relational store is an association
list keyed by the trade ticket.
-/

namespace FxBlue

/-- A Python value as it travels through a pandas frame or a psycopg2
parameter tuple: `null` covers both `None` and `NaN`/`NaT`, `num` is a
numeric value, `str` a string cell. -/
inductive Val where
  | null : Val
  | num (q : ℚ) : Val
  | str (s : String) : Val
deriving DecidableEq

/-- The Python exception kinds the embedded code can raise. -/
inductive PyErr where
  | valueError : PyErr
  | keyError : PyErr
  | attributeError : PyErr
deriving DecidableEq

/-- Read a nonempty all-digit character run as a natural number. -/
def digitsToNat? (l : List Char) : Option ℕ :=
  if l ≠ [] ∧ l.all Char.isDigit then
    some (l.foldl (fun n c => n * 10 + (c.toNat - 48)) 0)
  else none

/-- Models the Python `float()` builtin (and the successful case of
`pandas.to_numeric`) on plain decimal literals: optional sign, digits,
optional fractional part.  Returns `none` where `float()` raises
`ValueError` (non-numeric garbage).  The value `ip.fp` is built as
`mkRat (ip * 10^k + fp) (10^k)`. -/
def pyFloat? (s : String) : Option ℚ :=
  let core (cs : List Char) : Option ℚ :=
    match cs.splitOn '.' with
    | [intPart] => (digitsToNat? intPart).map (fun n => mkRat (n : Int) 1)
    | [intPart, fracPart] =>
        match digitsToNat? intPart, digitsToNat? fracPart with
        | some i, some f =>
            some (mkRat ((i * 10 ^ fracPart.length + f : ℕ) : Int)
              (10 ^ fracPart.length))
        | _, _ => none
    | _ => none
  match s.data with
  | '-' :: rest => (core rest).map (fun q => mkRat (-q.num) q.den)
  | '+' :: rest => core rest
  | rest => core rest

/-- Models the Python `int()` builtin on strings: integer literals only
(`int("1.5")` raises). -/
def pyInt? (s : String) : Option Int :=
  match s.data with
  | '-' :: rest => (digitsToNat? rest).map (fun n => -(n : Int))
  | '+' :: rest => (digitsToNat? rest).map (fun n => (n : Int))
  | rest => (digitsToNat? rest).map (fun n => (n : Int))

/-- Division by 100 (`/ 100` in `to_pct`), written through `mkRat` so that
the value is kernel-computable. -/
def pyDiv100 (q : ℚ) : ℚ :=
  mkRat q.num (q.den * 100)

/-- Python `str.split(sep)` on character lists; the fuel argument (set to
the input length plus one) only makes the recursion structural. -/
def splitFuel (sep : List Char) : ℕ → List Char → List Char → List (List Char)
  | 0, acc, l => [acc.reverse ++ l]
  | _ + 1, acc, [] => [acc.reverse]
  | fuel + 1, acc, c :: rest =>
      if sep.isPrefixOf (c :: rest) then
        acc.reverse :: splitFuel sep fuel [] ((c :: rest).drop sep.length)
      else splitFuel sep fuel (c :: acc) rest

/-- Python `s.split(sep)` for a nonempty separator. -/
def pySplit (s sep : String) : List String :=
  (splitFuel sep.data (s.data.length + 1) [] s.data).map (fun l => ⟨l⟩)

/-- Python `s.replace(old, new)` on character lists (non-overlapping,
left to right); fuel as in `splitFuel`. -/
def replaceFuel (pat repl : List Char) : ℕ → List Char → List Char
  | _, [] => []
  | 0, l => l
  | fuel + 1, c :: rest =>
      if pat.isPrefixOf (c :: rest) then
        repl ++ replaceFuel pat repl fuel ((c :: rest).drop pat.length)
      else c :: replaceFuel pat repl fuel rest

/-- Python `s.replace(old, new)` for a nonempty pattern. -/
def pyReplace (s pat repl : String) : String :=
  ⟨replaceFuel pat.data repl.data s.data.length s.data⟩

/-- The last non-whitespace character of a string — what a trailing-
whitespace strip leaves at the end. -/
def lastNonWs (l : List Char) : Option Char :=
  l.foldl
    (fun acc c => if c = ' ' ∨ c = '\n' ∨ c = '\t' ∨ c = '\r' then acc
      else some c) none

/-- Number of occurrences of `pat` starting at each position of `l`. -/
def countSub (pat : List Char) : ℕ → List Char → ℕ
  | _, [] => 0
  | 0, _ => 0
  | fuel + 1, c :: rest =>
      (if pat.isPrefixOf (c :: rest) then 1 else 0) + countSub pat fuel rest

/-- `float(s)` on a string, with `ValueError` made explicit. -/
def pyFloatE (s : String) : Except PyErr ℚ :=
  match pyFloat? s with
  | some q => .ok q
  | none => .error .valueError

/-- The `float(x) if x else None` idiom of the RSS normalizer: a falsy
(empty) string becomes `None`, anything else goes through `float()`. -/
def truthyFloat (s : String) : Except PyErr (Option ℚ) :=
  if s = "" then .ok none else (pyFloatE s).map some

/-- The `int(x) if x else None` idiom (magic number field). -/
def truthyInt (s : String) : Except PyErr (Option Int) :=
  if s = "" then .ok none
  else match pyInt? s with
    | some n => .ok (some n)
    | none => .error .valueError

/-- `int(s)` on a string, with `ValueError` made explicit. -/
def pyIntE (s : String) : Except PyErr Int :=
  match pyInt? s with
  | some n => .ok n
  | none => .error .valueError

/-- The `float(x) if x != "0" else None` idiom used for take-profit and
stop-loss only: the literal string `"0"` means unset and becomes `None`;
anything else (including the empty string) goes through `float()`. -/
def tpSlParse (v : String) : Except PyErr (Option ℚ) :=
  if v ≠ "0" then (pyFloatE v).map some else pure none

/-- Attribute access on a feedparser entry: a missing attribute raises
`AttributeError` (the code itself guards `position_ticket` with
`hasattr`, relying on exactly this behaviour). -/
def getAttr (v : Option String) : Except PyErr String :=
  match v with
  | some s => .ok s
  | none => .error .attributeError

instance {ε α : Type} [DecidableEq ε] [DecidableEq α] :
    DecidableEq (Except ε α) := fun x y =>
  match x, y with
  | .ok a, .ok b =>
      if h : a = b then isTrue (by rw [h])
      else isFalse (fun hc => h (Except.ok.inj hc))
  | .error a, .error b =>
      if h : a = b then isTrue (by rw [h])
      else isFalse (fun hc => h (Except.error.inj hc))
  | .ok _, .error _ => isFalse (fun hc => Except.noConfusion hc)
  | .error _, .ok _ => isFalse (fun hc => Except.noConfusion hc)

/-! ### External collaborators

The object-store download, the feed transport and the two date parsers
(`pandas.to_datetime(...).dt.strftime(...)` and
`datetime.strptime`/`pytz` in `normalize_timestamp`) are external to the
core; the pipeline functions are parameterized over them so every theorem
holds for every behaviour of those collaborators. -/

/-- External date-parsing collaborators.  `toDatetime` models
`pd.to_datetime(_, errors="coerce").dt.strftime("%Y-%m-%dT%H:%M:%S")` on
one cell (`none` = `NaT`); `strptimeIso` models
`pytz.utc.localize(datetime.strptime(_, "%a %d %b %Y %H:%M:%S")).isoformat()`
(`none` = `strptime` raised). -/
structure Ext where
  toDatetime : Val → Option String
  strptimeIso : String → Option String

/-- `normalize_timestamp` of `gcp_rss.py`: parse the feed timestamp,
returning `None` on any parse failure (the `try/except` in the source). -/
def normalize_timestamp (E : Ext) (ts : String) : Option String :=
  E.strptimeIso ts

/-! ### CSV pipeline (`src/CSV PARSER/gcp_csv.py`) -/

/-- One pandas row: an association list from column name to cell value. -/
abbrev Row : Type := List (String × Val)

/-- A pandas data frame: the column index plus the rows. -/
structure DF where
  cols : List String
  rows : List Row
deriving DecidableEq

/-- `r[c]` on a pandas row: `KeyError` when the column is absent. -/
def getItem (r : Row) (c : String) : Except PyErr Val :=
  match r.lookup c with
  | some v => .ok v
  | none => .error .keyError

/-- `r.get(c)` on a pandas row: `None` when the column is absent. -/
def getDefault (r : Row) (c : String) : Val :=
  (r.lookup c).getD .null

/-- Set column `c` of one row to `v` (pandas column assignment). -/
def rowSet (r : Row) (c : String) (v : Val) : Row :=
  (r.filter (fun p => p.1 ≠ c)) ++ [(c, v)]

/-- `df[c] = v` with a scalar: assign `v` in every row. -/
def DF.setCol (df : DF) (c : String) (v : Val) : DF :=
  ⟨if df.cols.contains c then df.cols else df.cols ++ [c],
   df.rows.map (fun r => rowSet r c v)⟩

/-- Rename one column name through the rename table (unmapped names are
kept). -/
def renameCol (m : List (String × String)) (c : String) : String :=
  ((m.lookup c).getD c)

/-- `df.rename(columns=m)`. -/
def DF.rename (df : DF) (m : List (String × String)) : DF :=
  ⟨df.cols.map (renameCol m),
   df.rows.map (fun r => r.map (fun p => (renameCol m p.1, p.2)))⟩

/-- Apply `f` to every cell of column `c`. -/
def DF.mapCol (df : DF) (c : String) (f : Val → Val) : DF :=
  ⟨df.cols,
   df.rows.map (fun r => r.map (fun p => if p.1 = c then (p.1, f p.2) else p))⟩

/-- The fixed rename table of `process_blob` (source column → canonical
column). -/
def renameMap : List (String × String) :=
  [("Symbol", "symbol"), ("Buy/sell", "trade_type"),
   ("Open price", "entry_price"), ("Close price", "exit_price"),
   ("Lots", "lot_size"), ("Profit", "pnl"), ("Net profit", "net_profit"),
   ("MAE", "mae"), ("MFE", "mfe"), ("Open time", "timestamp"),
   ("Pips", "pips"), ("T/P", "tp"), ("S/L", "sl"),
   ("Trade duration (hours)", "trade_duration_hours")]

/-- The required-column set checked before any write. -/
def requiredCols : List String :=
  ["timestamp", "symbol", "trade_type", "entry_price", "exit_price",
   "lot_size", "pnl"]

/-- The fixed list of columns run through `pd.to_numeric(errors="coerce")`. -/
def numericCols : List String :=
  ["entry_price", "exit_price", "pnl", "net_profit", "mae", "mfe", "pips",
   "tp", "sl", "trade_duration_hours"]

/-- The enrichment placeholder columns initialized to null. -/
def gptCols : List String :=
  ["gpt_inferred_strategy", "gpt_strategy_confidence",
   "gpt_trade_evaluation", "gpt_alternative_action",
   "was_gpt_recommendation_followed", "gpt_impact_alignment"]

/-- `pd.to_numeric(_, errors="coerce")` on one cell: numbers pass through,
parseable strings become numbers, garbage and `NaN` become `NaN`. -/
def toNumericCoerce : Val → Val
  | .num q => .num q
  | .str s => match pyFloat? s with
      | some q => .num q
      | none => .null
  | .null => .null

/-- `os.path.basename`. -/
def basename (p : String) : String :=
  (pySplit p "/").getLastD p

/-- `os.path.basename(blob.name).split(".csv")[0]`: the owner key derived
from the work unit's file name. -/
def accountIdOf (name : String) : String :=
  (pySplit (basename name) ".csv").headD ""

/-- Python `str()` of a cell, as used by the f-string that feeds the
dedupe hash. -/
def pyStr : Val → String
  | .str s => s
  | .num q => toString q
  | .null => "nan"

/-- The dedupe identity key of one row:
`f"{r['account_id']}{r['Ticket']}{r['timestamp']}"`.  The `md5` digest of
the source is modelled by the hashed string itself (a collision-free
hash). -/
def keyOf (r : Row) : String :=
  pyStr (getDefault r "account_id") ++ pyStr (getDefault r "Ticket") ++
    pyStr (getDefault r "timestamp")

/-- Scanning pass of `drop_duplicates(subset="__hash")`: keep a row iff
its key has not been seen before. -/
def dedupeGo : List String → List Row → List Row
  | _, [] => []
  | seen, r :: rest =>
      if seen.contains (keyOf r) then dedupeGo seen rest
      else r :: dedupeGo (keyOf r :: seen) rest

/-- `df.drop_duplicates(subset="__hash")`: keep the first occurrence per
identity key, in original order. -/
def dedupeByHash (rows : List Row) : List Row :=
  dedupeGo [] rows

/-- The specification's reading of the dedupe rule, written as in §4.3 of
the design: keep the first occurrence, drop every later row with the same
identity hash, continue on the rest. -/
def dedupeSpec : List Row → List Row
  | [] => []
  | r :: rest => r :: dedupeSpec (rest.filter (fun x => keyOf x ≠ keyOf r))
termination_by l => l.length
decreasing_by
  simp only [List.length_cons]
  exact Nat.lt_succ_of_le (List.length_filter_le _ _)

/-- One parameter tuple passed to `cur.executemany(UPSERT_SQL, vals)`,
in the column order of `UPSERT_SQL`. -/
structure CsvTuple where
  ticket : Int
  account_id : Val
  symbol : Val
  trade_type : Val
  entry_price : Val
  exit_price : Val
  timestamp : Val
  lot_size : Val
  pnl : Val
  net_profit : Val
  mae : Val
  mfe : Val
  pips : Val
  tp : Val
  sl : Val
  trade_duration_hours : Val
  gpt_inferred_strategy : Val
  gpt_strategy_confidence : Val
  gpt_trade_evaluation : Val
  gpt_alternative_action : Val
  was_gpt_recommendation_followed : Val
  gpt_impact_alignment : Val
deriving DecidableEq

/-- `int(v)` on a cell value: strings must be integer literals, numbers
truncate toward zero, `NaN`/`None` raise. -/
def pyIntOfVal (v : Val) : Except PyErr Int :=
  match v with
  | .num q => .ok (q.num.tdiv q.den)
  | .str s => match pyInt? s with
      | some n => .ok n
      | none => .error .valueError
  | .null => .error .valueError

/-- Build one `vals` tuple from one row (the loop body of lines 163-189 of
`gcp_csv.py`); any missing key or non-coercible ticket raises. -/
def buildVal (r : Row) : Except PyErr CsvTuple := do
  let ticket ← (← getItem r "Ticket") |> pyIntOfVal
  let account_id ← getItem r "account_id"
  let symbol ← getItem r "symbol"
  let trade_type ← getItem r "trade_type"
  let entry_price ← getItem r "entry_price"
  let exit_price ← getItem r "exit_price"
  let timestamp ← getItem r "timestamp"
  let lot_size ← getItem r "lot_size"
  let pnl ← getItem r "pnl"
  let net_profit := getDefault r "net_profit"
  let mae := getDefault r "mae"
  let mfe := getDefault r "mfe"
  let pips := getDefault r "pips"
  let tp := getDefault r "tp"
  let sl := getDefault r "sl"
  let trade_duration_hours := getDefault r "trade_duration_hours"
  let g1 ← getItem r "gpt_inferred_strategy"
  let g2 ← getItem r "gpt_strategy_confidence"
  let g3 ← getItem r "gpt_trade_evaluation"
  let g4 ← getItem r "gpt_alternative_action"
  let g5 ← getItem r "was_gpt_recommendation_followed"
  let g6 ← getItem r "gpt_impact_alignment"
  return ⟨ticket, account_id, symbol, trade_type, entry_price, exit_price,
    timestamp, lot_size, pnl, net_profit, mae, mfe, pips, tp, sl,
    trade_duration_hours, g1, g2, g3, g4, g5, g6⟩

/-- The `vals` accumulation loop: the first raising row aborts the whole
unit (nothing reaches `executemany`). -/
def buildVals : List Row → Except PyErr (List CsvTuple)
  | [] => .ok []
  | r :: rest => do
      let t ← buildVal r
      let ts ← buildVals rest
      return t :: ts

/-- Terminal outcome of one CSV work unit. -/
inductive CsvOutcome where
  | finished (n : ℕ) : CsvOutcome
  | missingCols : CsvOutcome
  | failedLogged (e : PyErr) : CsvOutcome
deriving DecidableEq

/-- Observable result of `process_blob`: warning-log count, the tuples
passed to the writer, the store-connection events, and the terminal
outcome.  `process_blob` never raises (its `try` spans the whole body). -/
structure CsvResult where
  warnings : ℕ
  written : List CsvTuple
  connOpened : Bool
  connClosed : Bool
  outcome : CsvOutcome
deriving DecidableEq

/-- The timestamp-cleanup pass (lines 101-105): when a `timestamp` column
exists, run it through the external date parser; `NaT` prints as null. -/
def timestampStep (E : Ext) (d : DF) : DF :=
  if d.cols.contains "timestamp" then
    d.mapCol "timestamp" (fun v => (E.toDatetime v).elim Val.null Val.str)
  else d

/-- The frame after owner-key assignment, renames and timestamp cleanup,
i.e. the state at the required-columns check. -/
def csvPrepared (E : Ext) (name : String) (df : DF) : DF :=
  timestampStep E
    ((df.setCol "account_id" (.str (accountIdOf name))).rename renameMap)

/-- One step of the numeric-coercion loop: `if col in df:` coerce that
column cell-wise. -/
def coerceStep (d : DF) (c : String) : DF :=
  if d.cols.contains c then d.mapCol c toNumericCoerce else d

/-- The numeric-coercion pass (lines 121-135) over a column list. -/
def coerceList (cs : List String) (df : DF) : DF :=
  cs.foldl coerceStep df

/-- The numeric-coercion pass of `process_blob`. -/
def coerceNumeric (df : DF) : DF :=
  coerceList numericCols df

/-- Numeric-or-null: what the coercion invariant promises of a cell. -/
def numOrNull : Val → Bool
  | .str _ => false
  | _ => true

/-- Well-formed frame: every row key is a known column. -/
def DFwf (df : DF) : Prop :=
  ∀ r ∈ df.rows, ∀ p ∈ r, p.1 ∈ df.cols

/-- The frame at the end of the numeric-coercion pass (lines 121-135),
the last state the unit reaches before the GPT-placeholder loop. -/
def csvCoerced (E : Ext) (name : String) (df : DF) : DF :=
  coerceNumeric (csvPrepared E name df)

/-- One `df.setdefault(col, None)` call (line 146): pandas DataFrames
have no `setdefault` attribute (`__getattr__` resolves only column
names), so the lookup raises `AttributeError` unconditionally. -/
def setdefaultCall (df : DF) (col : String) : Except PyErr DF :=
  Except.error PyErr.attributeError

/-- The GPT-placeholder loop (lines 137-146): with its non-empty column
list, the first `df.setdefault` call raises. -/
def setGptDefaults (df : DF) : Except PyErr DF :=
  gptCols.foldlM setdefaultCall df

/-- The dedupe pass (lines 148-157): applied only when a `Ticket` column
exists. -/
def dedupeStep (d : DF) : DF :=
  if d.cols.contains "Ticket" then ⟨d.cols, dedupeByHash d.rows⟩ else d

/-- The `try` body of `process_blob` past the required-columns check:
the GPT-placeholder loop, then — on a frame it would return — dedupe,
`get_db_conn`, the `vals` loop, `executemany`, `commit` and `close`.  A
raise is caught by the unit's `except` and logged; the placeholder loop
raises before `get_db_conn`, so on that path the connection is never
acquired, while a `vals`-loop raise leaves the acquired connection
open. -/
def csvTryBody (E : Ext) (name : String) (df : DF) : CsvResult :=
  match setGptDefaults (csvCoerced E name df) with
  | .error e => ⟨0, [], false, false, .failedLogged e⟩
  | .ok d =>
      match buildVals (dedupeStep d).rows with
      | .ok vals => ⟨0, vals, true, true, .finished vals.length⟩
      | .error e => ⟨0, [], true, false, .failedLogged e⟩

/-- `process_blob` after download and parse succeeded (the Reader is an
external collaborator; its failures are caught by the same `try`): a
failed required-columns check logs one warning and returns before the
placeholder loop; otherwise the `try` body runs. -/
def processBlob (E : Ext) (name : String) (df : DF) : CsvResult :=
  if requiredCols.all (fun c => (csvPrepared E name df).cols.contains c)
  then csvTryBody E name df
  else ⟨1, [], false, false, .missingCols⟩

/-- The CSV fan-out scheduler: every discovered blob is processed; no
unit's outcome influences another's. -/
def runAllCsv (E : Ext) (units : List (String × DF)) : List CsvResult :=
  units.map (fun u => processBlob E u.1 u.2)

/-! ### RSS pipeline (`src/gcp_rss.py`) -/

/-- The literal `TRADES_UPSERT` statement text of `gcp_rss.py` (the same
trailing-comma tail appears in `src/RSS PARSER/rss_parser.py`). -/
def TRADES_UPSERT : String :=
  "\nINSERT INTO rss_trades (\n  account_id, account_url, rss_url, trade_win, total_return, trades_per_day,\n  account_balance, account_equity, account_floating_profit, account_closed_profit,\n  account_free_margin, ticket, action, lots, symbol,\n  open_price, close_price, open_time, close_time,\n  profit, swap, commission, total_profit, take_profit,\n  stop_loss, magic_number,\n  gpt_recommendation_issued,\n  gpt_recommendation_content,\n  gpt_recommendation_accuracy,\n  gpt_suggestion_score,\n  trade_deviation_reasoning\n)\nVALUES (%s)\nON CONFLICT(ticket) DO UPDATE SET\n  account_id                 = EXCLUDED.account_id,\n  account_url                = EXCLUDED.account_url,\n  rss_url                    = EXCLUDED.rss_url,\n  trade_win                  = EXCLUDED.trade_win,\n  total_return               = EXCLUDED.total_return,\n  trades_per_day             = EXCLUDED.trades_per_day,\n  account_balance            = EXCLUDED.account_balance,\n  account_equity             = EXCLUDED.account_equity,\n  account_floating_profit    = EXCLUDED.account_floating_profit,\n  account_closed_profit      = EXCLUDED.account_closed_profit,\n  account_free_margin        = EXCLUDED.account_free_margin,\n  action                     = EXCLUDED.action,\n  lots                       = EXCLUDED.lots,\n  symbol                     = EXCLUDED.symbol,\n  open_price                 = EXCLUDED.open_price,\n  close_price                = EXCLUDED.close_price,\n  open_time                  = EXCLUDED.open_time,\n  close_time                 = EXCLUDED.close_time,\n  profit                     = EXCLUDED.profit,\n  swap                       = EXCLUDED.swap,\n  commission                 = EXCLUDED.commission,\n  total_profit               = EXCLUDED.total_profit,\n  take_profit                = EXCLUDED.take_profit,\n  stop_loss                  = EXCLUDED.stop_loss,\n  magic_number               = EXCLUDED.magic_number,\n  \n"

/-- The tail of the (valid) `UPSERT_SQL` statement of `gcp_csv.py` — its
`DO UPDATE SET` list ends without a trailing comma. -/
def UPSERT_SQL_tail : String :=
  "\n    tp                    = EXCLUDED.tp,\n    sl                    = EXCLUDED.sl,\n    trade_duration_hours  = EXCLUDED.trade_duration_hours\n"

/-- Python string repetition `s * n`. -/
def pyStrMul (s : String) (n : ℕ) : String :=
  (List.replicate n s).foldl (fun a b => a ++ b) ""

/-- The statement text actually passed to `cur.executemany`:
`TRADES_UPSERT.replace("(%s)", "(%s)" * 31)`. -/
def rssExecutedTradesSql : String :=
  pyReplace TRADES_UPSERT "(%s)" (pyStrMul "(%s)" 31)

/-- One row of the `rss_trades` store, in the column order of
`TRADES_UPSERT`. -/
structure TradeRow where
  account_id : Val
  account_url : Val
  rss_url : Val
  trade_win : Option ℚ
  total_return : Option ℚ
  trades_per_day : Option ℚ
  account_balance : Option ℚ
  account_equity : Option ℚ
  account_floating_profit : Option ℚ
  account_closed_profit : Option ℚ
  account_free_margin : Option ℚ
  ticket : Int
  action : String
  lots : Option ℚ
  symbol : String
  open_price : Option ℚ
  close_price : Option ℚ
  open_time : Option String
  close_time : Option String
  profit : Option ℚ
  swap : Option ℚ
  commission : Option ℚ
  total_profit : Option ℚ
  take_profit : Option ℚ
  stop_loss : Option ℚ
  magic_number : Option Int
  gpt_recommendation_issued : Option String
  gpt_recommendation_content : Option String
  gpt_recommendation_accuracy : Option String
  gpt_suggestion_score : Option String
  trade_deviation_reasoning : Option String
deriving DecidableEq

/-- Conflict resolution of the trades upsert, read off the `DO UPDATE SET`
column list: every mutable column takes the incoming (`EXCLUDED`) value;
the five enrichment columns (absent from the list — commented out in the
source) keep the stored value. -/
def applyConflict (old incoming : TradeRow) : TradeRow :=
  { incoming with
    gpt_recommendation_issued := old.gpt_recommendation_issued,
    gpt_recommendation_content := old.gpt_recommendation_content,
    gpt_recommendation_accuracy := old.gpt_recommendation_accuracy,
    gpt_suggestion_score := old.gpt_suggestion_score,
    trade_deviation_reasoning := old.trade_deviation_reasoning }

/-- The `rss_trades` table, keyed by `ticket`. -/
abbrev Store : Type := List (Int × TradeRow)

/-- One execution of the trades upsert for one parameter tuple: insert, or
on a ticket conflict apply the `DO UPDATE SET` list. -/
def upsertTrade (st : Store) (r : TradeRow) : Store :=
  match st.lookup r.ticket with
  | some _ =>
      st.map (fun p => if p.1 = r.ticket then (p.1, applyConflict p.2 r) else p)
  | none => st ++ [(r.ticket, r)]

/-- `cur.executemany` over one batch: the statement runs once per tuple,
in order. -/
def applyBatch (st : Store) (b : List TradeRow) : Store :=
  b.foldl upsertTrade st

/-- A whole unit's batched writes, in order. -/
def applyBatches (st : Store) (bs : List (List TradeRow)) : Store :=
  bs.foldl applyBatch st

/-- One step of the batch-accumulation loop (lines 173-212 of
`gcp_rss.py`): append the trade; once the pending list reaches
`BATCH_SIZE`, flush it. -/
def batchStep {α : Type} (bsz : ℕ) (acc : List (List α) × List α) (t : α) :
    List (List α) × List α :=
  let cur := acc.2 ++ [t]
  if bsz ≤ cur.length then (acc.1 ++ [cur], []) else (acc.1, cur)

/-- The final `if trades:` flush after the loop. -/
def flushFinal {α : Type} (acc : List (List α) × List α) : List (List α) :=
  if acc.2.isEmpty then acc.1 else acc.1 ++ [acc.2]

/-- The batches a unit's trade sequence is written in: the loop's flushes
followed by the final `if trades:` flush. -/
def batchesOf {α : Type} (bsz : ℕ) (ts : List α) : List (List α) :=
  flushFinal (ts.foldl (batchStep bsz) ([], []))

/-- One feedparser entry: a bag of optional named fields (absence of a
field is a valid transport state). -/
structure Entry where
  account_balance : Option String := none
  account_equity : Option String := none
  account_floatingprofit : Option String := none
  account_closedprofit : Option String := none
  account_freemargin : Option String := none
  position_ticket : Option String := none
  position_action : Option String := none
  position_lots : Option String := none
  position_symbol : Option String := none
  position_openprice : Option String := none
  position_closeprice : Option String := none
  position_opentime : Option String := none
  position_closetime : Option String := none
  position_profit : Option String := none
  position_swap : Option String := none
  position_commission : Option String := none
  position_totalprofit : Option String := none
  position_tp : Option String := none
  position_sl : Option String := none
  position_magicnumber : Option String := none
deriving DecidableEq

/-- `x.strip("%")`. -/
def stripPct (s : String) : String :=
  ⟨((s.data.dropWhile (fun c => c = '%')).reverse.dropWhile
      (fun c => c = '%')).reverse⟩

/-- The `to_pct` helper of `process_account`: `NaN` and the placeholder
`"-"` become `None`; a string is stripped of `%` signs, parsed and
divided by 100; a number passes through `float()`.  A non-numeric string
raises `ValueError` — note this happens **before** the `try` block. -/
def to_pct (x : Val) : Except PyErr (Option ℚ) :=
  match x with
  | .null => .ok none
  | .str s =>
      if s = "-" then .ok none
      else (pyFloatE (stripPct s)).map (fun q => some (pyDiv100 q))
  | .num q => .ok (some q)

/-- The per-unit constants stamped on every trade a unit emits. -/
structure UnitCtx where
  sa : Val
  url : Val
  rss : Val
  win : Option ℚ
  ret : Option ℚ
  tpd : Option ℚ
deriving DecidableEq

/-- The running account summary carried forward across feed entries. -/
structure Summary where
  bal : Option ℚ
  eq : Option ℚ
  fp : Option ℚ
  cp : Option ℚ
  fm : Option ℚ
deriving DecidableEq

/-- Normalization of one position entry (lines 151-207 of `gcp_rss.py`),
stamped with the unit context and current summary.  Mirrors the source's
evaluation order; any `float`/`int` failure or missing attribute raises. -/
def parsePosition (E : Ext) (c : UnitCtx) (s : Summary) (item : Entry) :
    Except PyErr TradeRow := do
  let tkv ← getAttr item.position_ticket
  let ticket ← pyIntE tkv
  let action ← getAttr item.position_action
  let lots ← truthyFloat (← getAttr item.position_lots)
  let symbol ← getAttr item.position_symbol
  let op ← truthyFloat (← getAttr item.position_openprice)
  let cl ← truthyFloat (← getAttr item.position_closeprice)
  let otv ← getAttr item.position_opentime
  let ot := normalize_timestamp E otv
  let ctv ← getAttr item.position_closetime
  let ct := if ctv ≠ "Thu 1 Jan 1970 00:00:00" then normalize_timestamp E ctv
    else none
  let profit ← truthyFloat (← getAttr item.position_profit)
  let swap ← truthyFloat (← getAttr item.position_swap)
  let comm ← truthyFloat (← getAttr item.position_commission)
  let tpft ← truthyFloat (← getAttr item.position_totalprofit)
  let tpv ← getAttr item.position_tp
  let tp_ ← tpSlParse tpv
  let slv ← getAttr item.position_sl
  let sl_ ← tpSlParse slv
  let mag ← truthyInt (← getAttr item.position_magicnumber)
  return ⟨c.sa, c.url, c.rss, c.win, c.ret, c.tpd, s.bal, s.eq, s.fp, s.cp,
    s.fm, ticket, action, lots, symbol, op, cl, ot, ct, profit, swap, comm,
    tpft, tp_, sl_, mag, none, none, none, none, none⟩

/-- In-flight state of the entry walk: the carried summary, the pending
batch and the batches already executed. -/
structure WalkSt where
  sum : Summary
  pending : List TradeRow
  executed : List (List TradeRow)
deriving DecidableEq

/-- The account-summary update (lines 140-145): when `account_balance`
is present the other four fields are accessed unguarded and parsed with
plain `float()`; otherwise the carried summary stands. -/
def readSummary (st : WalkSt) (item : Entry) : Except PyErr Summary :=
  if item.account_balance.isSome then do
    let bal ← pyFloatE (← getAttr item.account_balance)
    let eq ← pyFloatE (← getAttr item.account_equity)
    let fp ← pyFloatE (← getAttr item.account_floatingprofit)
    let cp ← pyFloatE (← getAttr item.account_closedprofit)
    let fm ← pyFloatE (← getAttr item.account_freemargin)
    pure (⟨some bal, some eq, some fp, some cp, some fm⟩ : Summary)
  else pure st.sum

/-- One iteration of the `for item in feed.entries` loop: update the
summary if the entry carries one, skip non-positions, parse the
position, and flush a full batch. -/
def stepEntry (E : Ext) (bsz : ℕ) (c : UnitCtx) (st : WalkSt) (item : Entry) :
    Except PyErr WalkSt := do
  let s ← readSummary st item
  if item.position_ticket.isNone then
    return { st with sum := s }
  else
    let r ← parsePosition E c s item
    let pending := st.pending ++ [r]
    if bsz ≤ pending.length then
      return ⟨s, [], st.executed ++ [pending]⟩
    else
      return ⟨s, pending, st.executed⟩

/-- The entry walk; the first raising entry stops the walk and the
exception propagates (to be caught by the unit's `try`). -/
def walkEntries (E : Ext) (bsz : ℕ) (c : UnitCtx) :
    List Entry → WalkSt → WalkSt × Option PyErr
  | [], st => (st, none)
  | item :: rest, st =>
      match stepEntry E bsz c st item with
      | .ok st' => walkEntries E bsz c rest st'
      | .error e => (st, some e)

/-- Terminal outcome of one RSS work unit's `try` block. -/
inductive RssOutcome where
  | success : RssOutcome
  | failedLogged (e : PyErr) : RssOutcome
deriving DecidableEq

/-- Observable result of one `process_account` call that did not raise:
connection events, whether the metadata upsert ran, the trade batches
passed to the writer, and the terminal outcome. -/
structure AccountResult where
  connOpened : Bool
  connClosed : Bool
  metaExecuted : Bool
  executed : List (List TradeRow)
  outcome : RssOutcome
deriving DecidableEq

/-- One roster row as `process_account` receives it (`row.get` on the
percent fields returns `NaN` for a missing cell, covered by `Val.null`). -/
structure AccountRow where
  username : Val
  account_url : Val
  rss_url : Val
  tradeWin : Val
  totalReturn : Val
  tradesPerDay : Val
deriving DecidableEq

/-- Outcome of the `try` block given the entry walk's final state: on a
caught exception the connection stays open (no `finally`) and the error
is logged; on success the pending batch is flushed (`if trades:`), the
transaction commits and the connection closes. -/
def tryBodyResult (st : WalkSt) (err : Option PyErr) : AccountResult :=
  match err with
  | some e => ⟨true, false, true, st.executed, .failedLogged e⟩
  | none =>
      ⟨true, true, true,
        (if st.pending = [] then st.executed else st.executed ++ [st.pending]),
        .success⟩

/-- `process_account` for one roster row and a parsed feed.  The percent
fields are parsed *before* the `try` block, so their exceptions escape as
the outer `.error`; everything inside the `try` is caught and logged. -/
def processAccount (E : Ext) (bsz : ℕ) (row : AccountRow)
    (feed : List Entry) : Except PyErr AccountResult := do
  let sa := row.username
  let url := row.account_url
  let rss := row.rss_url
  let win ← to_pct row.tradeWin
  let ret ← to_pct row.totalReturn
  let tpd ← to_pct row.tradesPerDay
  let walk := walkEntries E bsz ⟨sa, url, rss, win, ret, tpd⟩ feed
    ⟨⟨none, none, none, none, none⟩, [], []⟩
  pure (tryBodyResult walk.1 walk.2)

/-- A `ThreadPoolExecutor` future: the scheduler's `for _ in
as_completed: pass` never re-raises, so an escaped exception sits in the
future without aborting anything. -/
inductive UnitFuture where
  | completed (r : AccountResult) : UnitFuture
  | raised (e : PyErr) : UnitFuture
deriving DecidableEq

/-- Wrap one unit's execution as its future. -/
def futureOf (x : Except PyErr AccountResult) : UnitFuture :=
  match x with
  | .ok r => .completed r
  | .error e => .raised e

/-- The RSS fan-out scheduler: one future per roster row, each unit
independent. -/
def runAllRss (E : Ext) (bsz : ℕ) (rows : List (AccountRow × List Entry)) :
    List UnitFuture :=
  rows.map (fun p => futureOf (processAccount E bsz p.1 p.2))

/-! ### Helper lemmas -/

theorem except_bind_ok {α β : Type} {x : Except PyErr α}
    {f : α → Except PyErr β} {b : β} (h : x >>= f = Except.ok b) :
    ∃ a, x = Except.ok a ∧ f a = Except.ok b := by
  cases x with
  | ok a => exact ⟨a, rfl, h⟩
  | error e => exact absurd h (by simp [Bind.bind, Except.bind])

theorem dedupeSpec_nil : dedupeSpec [] = [] := by
  simp [dedupeSpec]

theorem dedupeSpec_cons (r : Row) (rest : List Row) :
    dedupeSpec (r :: rest) =
      r :: dedupeSpec (rest.filter (fun x => keyOf x ≠ keyOf r)) := by
  simp [dedupeSpec]

/-! ### Batching equivalence (claim C4) -/

theorem applyBatches_flatten (st : Store) (bss : List (List TradeRow)) :
    applyBatches st bss = bss.flatten.foldl upsertTrade st := by
  induction bss generalizing st with
  | nil => rfl
  | cons b bss ih =>
      simp only [applyBatches, List.foldl_cons, List.flatten_cons,
        List.foldl_append]
      exact ih (applyBatch st b)

theorem flushFinal_foldl_flatten {α : Type} (bsz : ℕ) :
    ∀ (ts : List α) (done : List (List α)) (cur : List α),
      (flushFinal (ts.foldl (batchStep bsz) (done, cur))).flatten =
        done.flatten ++ cur ++ ts := by
  intro ts
  induction ts with
  | nil =>
      intro done cur
      cases cur with
      | nil => simp [flushFinal]
      | cons c cs => simp [flushFinal]
  | cons t ts ih =>
      intro done cur
      simp only [List.foldl_cons, batchStep]
      by_cases h : bsz ≤ (cur ++ [t]).length
      · rw [if_pos h, ih]
        simp [List.append_assoc]
      · rw [if_neg h, ih]
        simp [List.append_assoc]

/-- One loop iteration's effect on the (executed, pending) pair is a
`batchStep` fold over the trades it emits: none for a summary-only
entry, one for a position entry. -/
theorem stepEntry_batch_inv {E : Ext} {bsz : ℕ} {c : UnitCtx}
    {st st' : WalkSt} {item : Entry}
    (h : stepEntry E bsz c st item = Except.ok st') :
    ∃ ts : List TradeRow,
      (st'.executed, st'.pending) =
        ts.foldl (batchStep bsz) (st.executed, st.pending) := by
  unfold stepEntry at h
  obtain ⟨s, hs, h⟩ := except_bind_ok h
  by_cases hp : item.position_ticket.isNone = true
  · simp only [hp, eq_self_iff_true, if_true] at h
    have h' := Except.ok.inj h
    subst h'
    exact ⟨[], rfl⟩
  · rw [Bool.not_eq_true] at hp
    simp only [hp, Bool.false_eq_true, if_false] at h
    obtain ⟨r, hr, h⟩ := except_bind_ok h
    by_cases hl : bsz ≤ (st.pending ++ [r]).length
    · simp only [hl, if_true] at h
      have h' := Except.ok.inj h
      subst h'
      refine ⟨[r], ?_⟩
      have hl' : bsz ≤ st.pending.length + 1 := by simpa using hl
      simp [batchStep, hl']
    · simp only [hl, if_false] at h
      have h' := Except.ok.inj h
      subst h'
      refine ⟨[r], ?_⟩
      have hl' : ¬ bsz ≤ st.pending.length + 1 := by simpa using hl
      simp [batchStep, hl']

/-- A completed entry walk's (executed, pending) pair is the batch
accumulation of the trades it emitted, in order. -/
theorem walkEntries_batch (E : Ext) (bsz : ℕ) (c : UnitCtx) :
    ∀ (items : List Entry) (st st' : WalkSt),
      walkEntries E bsz c items st = (st', none) →
      ∃ ts : List TradeRow,
        (st'.executed, st'.pending) =
          ts.foldl (batchStep bsz) (st.executed, st.pending) := by
  intro items
  induction items with
  | nil =>
      intro st st' h
      have h2 : st = st' := congrArg Prod.fst h
      subst h2
      exact ⟨[], rfl⟩
  | cons item rest ih =>
      intro st st' h
      cases hse : stepEntry E bsz c st item with
      | error e =>
          rw [walkEntries, hse] at h
          have h2 : some e = none := congrArg Prod.snd h
          exact Option.noConfusion h2
      | ok st1 =>
          rw [walkEntries, hse] at h
          obtain ⟨ts1, h1⟩ := stepEntry_batch_inv hse
          obtain ⟨ts2, h2⟩ := ih st1 st' h
          refine ⟨ts1 ++ ts2, ?_⟩
          rw [List.foldl_append, ← h1]
          exact h2

/-- A successfully completed unit's executed batches (loop flushes plus
the final `if trades:` flush) are exactly the batching `batchesOf` of
the trade sequence the walk emitted. -/
theorem processAccount_success_batches {E : Ext} {bsz : ℕ}
    {row : AccountRow} {feed : List Entry} {res : AccountResult}
    (h : processAccount E bsz row feed = Except.ok res)
    (hs : res.outcome = RssOutcome.success) :
    ∃ ts : List TradeRow, res.executed = batchesOf bsz ts := by
  unfold processAccount at h
  obtain ⟨w, hw, h⟩ := except_bind_ok h
  obtain ⟨x, hx, h⟩ := except_bind_ok h
  obtain ⟨y, hy, h⟩ := except_bind_ok h
  cases hWE : walkEntries E bsz
      ⟨row.username, row.account_url, row.rss_url, w, x, y⟩
      feed ⟨⟨none, none, none, none, none⟩, [], []⟩ with
  | mk st1 err =>
    have hres : res = tryBodyResult st1 err := by
      have h0 : res = tryBodyResult
          (walkEntries E bsz
            ⟨row.username, row.account_url, row.rss_url, w, x, y⟩
            feed ⟨⟨none, none, none, none, none⟩, [], []⟩).1
          (walkEntries E bsz
            ⟨row.username, row.account_url, row.rss_url, w, x, y⟩
            feed ⟨⟨none, none, none, none, none⟩, [], []⟩).2 :=
        (Except.ok.inj h).symm
      rw [hWE] at h0
      exact h0
    cases err with
    | some e =>
        rw [hres] at hs
        simp [tryBodyResult] at hs
    | none =>
        obtain ⟨ts, hts⟩ := walkEntries_batch E bsz
          ⟨row.username, row.account_url, row.rss_url, w, x, y⟩ feed
          ⟨⟨none, none, none, none, none⟩, [], []⟩ st1 hWE
        refine ⟨ts, ?_⟩
        rw [hres]
        simp only [tryBodyResult]
        have h1 : st1.executed =
            (ts.foldl (batchStep bsz) ([], [])).1 := congrArg Prod.fst hts
        have h2 : st1.pending =
            (ts.foldl (batchStep bsz) ([], [])).2 := congrArg Prod.snd hts
        rw [batchesOf, h1, h2]
        cases hF : (List.foldl (batchStep bsz) ([], []) ts).2 with
        | nil => simp [flushFinal, hF]
        | cons a l => simp [flushFinal, hF]

/-- C4: for every sequence of normalized records in one work unit and
every batch size, writing the records in the loop's batches yields the
same net store state as writing every record individually in order; and
every RSS unit that completes successfully hands the writer exactly the
batching of the trade sequence its walk emitted, so its net store effect
equals that sequence's individual upserts in order. -/
theorem C4_batching_preserves_store :
    (∀ (bsz : ℕ) (ts : List TradeRow) (st : Store),
      applyBatches st (batchesOf bsz ts) = ts.foldl upsertTrade st) ∧
    (∀ (E : Ext) (bsz : ℕ) (row : AccountRow) (feed : List Entry)
        (res : AccountResult),
      processAccount E bsz row feed = Except.ok res →
      res.outcome = RssOutcome.success →
      ∃ ts : List TradeRow, res.executed = batchesOf bsz ts ∧
        ∀ st : Store, applyBatches st res.executed = ts.foldl upsertTrade st) := by
  constructor
  · intro bsz ts st
    rw [applyBatches_flatten, batchesOf, flushFinal_foldl_flatten]
    simp
  · intro E bsz row feed res h hs
    obtain ⟨ts, hts⟩ := processAccount_success_batches h hs
    refine ⟨ts, hts, fun st => ?_⟩
    rw [hts, applyBatches_flatten, batchesOf, flushFinal_foldl_flatten]
    simp

/-! ### Deduplication (claim C5) -/

theorem dedupeGo_eq_spec (rows : List Row) :
    ∀ seen : List String,
      dedupeGo seen rows =
        dedupeSpec (rows.filter (fun r => !(seen.contains (keyOf r)))) := by
  induction rows with
  | nil => intro seen; simp [dedupeGo, dedupeSpec_nil]
  | cons r rest ih =>
      intro seen
      cases hb : seen.contains (keyOf r) with
      | true =>
          rw [dedupeGo, if_pos hb, List.filter_cons,
            if_neg (show ¬ ((!seen.contains (keyOf r)) = true) by
              rw [hb]; simp)]
          exact ih seen
      | false =>
          rw [dedupeGo, if_neg (show ¬ (seen.contains (keyOf r) = true) by
              rw [hb]; simp),
            List.filter_cons,
            if_pos (show (!seen.contains (keyOf r)) = true by rw [hb]; rfl),
            dedupeSpec_cons, ih (keyOf r :: seen)]
          congr 1
          rw [List.filter_filter]
          congr 1
          apply List.filter_congr
          intro x _
          by_cases hk : keyOf x = keyOf r
          · simp [List.contains_cons, hk]
          · by_cases hs : seen.contains (keyOf x) = true
            · simp [List.contains_cons, hk, hs]
            · simp [List.contains_cons, hk, hs]

theorem mem_dedupeSpec {x : Row} :
    ∀ rows : List Row, x ∈ dedupeSpec rows → x ∈ rows := by
  intro rows
  induction rows using dedupeSpec.induct with
  | case1 =>
      rw [dedupeSpec_nil]
      exact fun h => h
  | case2 r rest ih =>
      rw [dedupeSpec_cons]
      intro h
      rcases List.mem_cons.mp h with h | h
      · exact h ▸ List.mem_cons_self r rest
      · exact List.mem_cons_of_mem r (List.mem_of_mem_filter (ih h))

theorem dedupeSpec_keys_nodup :
    ∀ rows : List Row, ((dedupeSpec rows).map keyOf).Nodup := by
  intro rows
  induction rows using dedupeSpec.induct with
  | case1 => simp [dedupeSpec_nil]
  | case2 r rest ih =>
      rw [dedupeSpec_cons]
      simp only [List.map_cons, List.nodup_cons]
      refine ⟨?_, ih⟩
      intro hmem
      rcases List.mem_map.mp hmem with ⟨x, hx, hkey⟩
      have hx' := mem_dedupeSpec _ hx
      have hpx := List.of_mem_filter hx'
      exact (of_decide_eq_true hpx) hkey

theorem dedupeSpec_nodup_id :
    ∀ rows : List Row, ((rows.map keyOf).Nodup) → dedupeSpec rows = rows := by
  intro rows
  induction rows with
  | nil => intro _; exact dedupeSpec_nil
  | cons r rest ih =>
      intro h
      simp only [List.map_cons, List.nodup_cons] at h
      rw [dedupeSpec_cons]
      have hfil : rest.filter (fun x => keyOf x ≠ keyOf r) = rest := by
        apply List.filter_eq_self.mpr
        intro a ha
        exact decide_eq_true (fun hk => h.1 (List.mem_map.mpr ⟨a, ha, hk⟩))
      rw [hfil, ih h.2]

/-- C5: the deduplication step keeps exactly the first occurrence per
identity hash (computed from owner key, source ticket and normalized
timestamp) in original order — it equals the keep-first specification —
is the identity on inputs free of duplicate hashes, and applied twice
equals applied once. -/
theorem C5_dedupe_first_occurrence (rows : List Row) :
    dedupeByHash rows = dedupeSpec rows ∧
    ((rows.map keyOf).Nodup → dedupeByHash rows = rows) ∧
    dedupeByHash (dedupeByHash rows) = dedupeByHash rows := by
  have hfilt : ∀ l : List Row,
      l.filter (fun r => !(([] : List String).contains (keyOf r))) = l := by
    intro l
    apply List.filter_eq_self.mpr
    intro a _
    simp
  have hbase : ∀ l : List Row, dedupeByHash l = dedupeSpec l := by
    intro l
    rw [dedupeByHash, dedupeGo_eq_spec, hfilt]
  refine ⟨hbase rows, fun h => ?_, ?_⟩
  · rw [hbase rows, dedupeSpec_nodup_id rows h]
  · rw [hbase rows, hbase (dedupeSpec rows),
      dedupeSpec_nodup_id _ (dedupeSpec_keys_nodup rows)]

/-! ### The shipped upsert statement (claim C2) -/

set_option maxRecDepth 8000 in
/-- C2: the claim's conflict behaviour never takes effect, because the
statement the RSS writer executes is not well-formed SQL: the
`DO UPDATE SET` list of `TRADES_UPSERT` ends in a trailing comma (its
last non-whitespace character), and the `(%s)` substitution produces 31
juxtaposed parenthesized groups (30 adjacent `)(` pairs, no `),`
separators) in the `VALUES` clause.  The CSV statement's `SET` tail, by
contrast, ends without a comma. -/
theorem C2_trades_upsert_malformed :
    lastNonWs TRADES_UPSERT.data = some ',' ∧
    countSub ")(".data (pyStrMul "(%s)" 31).data.length
      (pyStrMul "(%s)" 31).data = 30 ∧
    countSub "),".data (pyStrMul "(%s)" 31).data.length
      (pyStrMul "(%s)" 31).data = 0 ∧
    lastNonWs UPSERT_SQL_tail.data = some 's' := by
  refine ⟨by decide, by decide, by decide, by decide⟩

/-! ### Inversion of the RSS position normalizer -/

theorem getAttr_ok {v : Option String} {s : String}
    (h : getAttr v = .ok s) : v = some s := by
  cases v with
  | some t => exact congrArg some (Except.ok.inj h)
  | none => exact absurd h (by simp [getAttr])

theorem pyIntE_ok {s : String} {n : Int} (h : pyIntE s = Except.ok n) :
    pyInt? s = some n := by
  unfold pyIntE at h
  cases hm : pyInt? s with
  | some m => rw [hm] at h; exact congrArg some (Except.ok.inj h)
  | none => rw [hm] at h; exact absurd h (by simp)

/-- Everything a successful `parsePosition` run tells us: each source
attribute was present, each field of the emitted row is the coercion the
source applies to it, the unit context and running summary are stamped
unchanged, and all five enrichment placeholders are null. -/
theorem parsePosition_ok_inv {E : Ext} {c : UnitCtx} {s : Summary}
    {item : Entry} {r : TradeRow}
    (h : parsePosition E c s item = .ok r) :
    ∃ tkv act lotv sym opv clv otv ctv pv swv cov tpfv tpv slv mgv,
      item.position_ticket = some tkv ∧ pyInt? tkv = some r.ticket ∧
      item.position_action = some act ∧ r.action = act ∧
      item.position_lots = some lotv ∧ truthyFloat lotv = .ok r.lots ∧
      item.position_symbol = some sym ∧ r.symbol = sym ∧
      item.position_openprice = some opv ∧
        truthyFloat opv = .ok r.open_price ∧
      item.position_closeprice = some clv ∧
        truthyFloat clv = .ok r.close_price ∧
      item.position_opentime = some otv ∧
        r.open_time = normalize_timestamp E otv ∧
      item.position_closetime = some ctv ∧
        r.close_time = (if ctv ≠ "Thu 1 Jan 1970 00:00:00" then
          normalize_timestamp E ctv else none) ∧
      item.position_profit = some pv ∧ truthyFloat pv = .ok r.profit ∧
      item.position_swap = some swv ∧ truthyFloat swv = .ok r.swap ∧
      item.position_commission = some cov ∧
        truthyFloat cov = .ok r.commission ∧
      item.position_totalprofit = some tpfv ∧
        truthyFloat tpfv = .ok r.total_profit ∧
      item.position_tp = some tpv ∧
        tpSlParse tpv = Except.ok r.take_profit ∧
      item.position_sl = some slv ∧
        tpSlParse slv = Except.ok r.stop_loss ∧
      item.position_magicnumber = some mgv ∧
        truthyInt mgv = .ok r.magic_number ∧
      r.account_id = c.sa ∧ r.account_url = c.url ∧ r.rss_url = c.rss ∧
      r.trade_win = c.win ∧ r.total_return = c.ret ∧
      r.trades_per_day = c.tpd ∧
      r.account_balance = s.bal ∧ r.account_equity = s.eq ∧
      r.account_floating_profit = s.fp ∧ r.account_closed_profit = s.cp ∧
      r.account_free_margin = s.fm ∧
      r.gpt_recommendation_issued = none ∧
      r.gpt_recommendation_content = none ∧
      r.gpt_recommendation_accuracy = none ∧
      r.gpt_suggestion_score = none ∧
      r.trade_deviation_reasoning = none := by
  unfold parsePosition at h
  obtain ⟨tkv, htkv, h⟩ := except_bind_ok h
  obtain ⟨tk, htk, h⟩ := except_bind_ok h
  obtain ⟨act, hact, h⟩ := except_bind_ok h
  obtain ⟨lotv, hlotv, h⟩ := except_bind_ok h
  obtain ⟨lots, hlots, h⟩ := except_bind_ok h
  obtain ⟨sym, hsym, h⟩ := except_bind_ok h
  obtain ⟨opv, hopv, h⟩ := except_bind_ok h
  obtain ⟨op, hop, h⟩ := except_bind_ok h
  obtain ⟨clv, hclv, h⟩ := except_bind_ok h
  obtain ⟨cl, hcl, h⟩ := except_bind_ok h
  obtain ⟨otv, hotv, h⟩ := except_bind_ok h
  obtain ⟨ctv, hctv, h⟩ := except_bind_ok h
  obtain ⟨pv, hpv, h⟩ := except_bind_ok h
  obtain ⟨profit, hprofit, h⟩ := except_bind_ok h
  obtain ⟨swv, hswv, h⟩ := except_bind_ok h
  obtain ⟨swap, hswap, h⟩ := except_bind_ok h
  obtain ⟨cov, hcov, h⟩ := except_bind_ok h
  obtain ⟨comm, hcomm, h⟩ := except_bind_ok h
  obtain ⟨tpfv, htpfv, h⟩ := except_bind_ok h
  obtain ⟨tpft, htpft, h⟩ := except_bind_ok h
  obtain ⟨tpv, htpv, h⟩ := except_bind_ok h
  obtain ⟨tp_, htp, h⟩ := except_bind_ok h
  obtain ⟨slv, hslv, h⟩ := except_bind_ok h
  obtain ⟨sl_, hsl, h⟩ := except_bind_ok h
  obtain ⟨mgv, hmgv, h⟩ := except_bind_ok h
  obtain ⟨mag, hmag, h⟩ := except_bind_ok h
  have hist := Except.ok.inj h
  subst hist
  exact ⟨tkv, act, lotv, sym, opv, clv, otv, ctv, pv, swv, cov, tpfv, tpv,
    slv, mgv, getAttr_ok htkv, pyIntE_ok htk, getAttr_ok hact, rfl,
    getAttr_ok hlotv, hlots, getAttr_ok hsym, rfl, getAttr_ok hopv, hop,
    getAttr_ok hclv, hcl, getAttr_ok hotv, rfl, getAttr_ok hctv, rfl,
    getAttr_ok hpv, hprofit, getAttr_ok hswv, hswap, getAttr_ok hcov,
    hcomm, getAttr_ok htpfv, htpft, getAttr_ok htpv, htp,
    getAttr_ok hslv, hsl, getAttr_ok hmgv, hmag, rfl, rfl, rfl, rfl, rfl,
    rfl, rfl, rfl, rfl, rfl, rfl, rfl, rfl, rfl, rfl, rfl⟩

theorem truthyFloat_empty_ok {x : Option ℚ}
    (h : truthyFloat "" = Except.ok x) : x = none :=
  (Except.ok.inj h).symm

theorem truthyInt_empty_ok {x : Option Int}
    (h : truthyInt "" = Except.ok x) : x = none :=
  (Except.ok.inj h).symm

theorem truthyFloat_zero_ok {x : Option ℚ}
    (h : truthyFloat "0" = Except.ok x) : x = some 0 := by
  have h0 : truthyFloat "0" = Except.ok (some 0) := by decide
  exact (Except.ok.inj (h0.symm.trans h)).symm

theorem tpSlParse_zero_ok {x : Option ℚ}
    (h : tpSlParse "0" = Except.ok x) : x = none :=
  (Except.ok.inj h).symm

/-- C7 (amended): a take-profit or stop-loss equal to the literal `"0"`
normalizes to null while a genuine `"0"` open price is preserved as
`0.0`; but an *absent* take-profit attribute does not normalize to null —
no record is emitted at all (the access raises and the unit fails). -/
theorem C7_tp_sl_zero_rule :
    (∀ (E : Ext) (c : UnitCtx) (s : Summary) (item : Entry) (r : TradeRow),
      parsePosition E c s item = .ok r →
      (item.position_tp = some "0" → r.take_profit = none) ∧
      (item.position_sl = some "0" → r.stop_loss = none) ∧
      (item.position_openprice = some "0" → r.open_price = some 0)) ∧
    (∀ (E : Ext) (c : UnitCtx) (s : Summary) (item : Entry),
      item.position_tp = none → ∀ r, parsePosition E c s item ≠ .ok r) := by
  constructor
  · intro E c s item r hok
    rcases parsePosition_ok_inv hok with
      ⟨tkv, act, lotv, sym, opv, clv, otv, ctv, pv, swv, cov, tpfv, tpv,
        slv, mgv, h01, h02, h03, h04, h05, h06, h07, h08, h09, h10, h11,
        h12, h13, h14, h15, h16, h17, h18, h19, h20, h21, h22, h23, h24,
        h25, h26, h27, h28, h29, h30, hrest⟩
    refine ⟨fun h0 => ?_, fun h0 => ?_, fun h0 => ?_⟩
    · have hv : tpv = "0" := Option.some.inj (h25.symm.trans h0)
      rw [hv] at h26
      exact tpSlParse_zero_ok h26
    · have hv : slv = "0" := Option.some.inj (h27.symm.trans h0)
      rw [hv] at h28
      exact tpSlParse_zero_ok h28
    · have hv : opv = "0" := Option.some.inj (h09.symm.trans h0)
      rw [hv] at h10
      exact truthyFloat_zero_ok h10
  · intro E c s item habs r hok
    rcases parsePosition_ok_inv hok with
      ⟨tkv, act, lotv, sym, opv, clv, otv, ctv, pv, swv, cov, tpfv, tpv,
        slv, mgv, h01, h02, h03, h04, h05, h06, h07, h08, h09, h10, h11,
        h12, h13, h14, h15, h16, h17, h18, h19, h20, h21, h22, h23, h24,
        h25, hrest⟩
    rw [habs] at h25
    exact Option.noConfusion h25

/-- C10: in the RSS normalizer, an empty-string value in the lots,
open-price, close-price, profit, swap, commission, total-profit or
magic-number field of a successfully emitted position normalizes to null
(the field's truthiness check), not to zero and not to an error. -/
theorem C10_empty_string_fields_null (E : Ext) (c : UnitCtx) (s : Summary)
    (item : Entry) (r : TradeRow) (hok : parsePosition E c s item = .ok r) :
    (item.position_lots = some "" → r.lots = none) ∧
    (item.position_openprice = some "" → r.open_price = none) ∧
    (item.position_closeprice = some "" → r.close_price = none) ∧
    (item.position_profit = some "" → r.profit = none) ∧
    (item.position_swap = some "" → r.swap = none) ∧
    (item.position_commission = some "" → r.commission = none) ∧
    (item.position_totalprofit = some "" → r.total_profit = none) ∧
    (item.position_magicnumber = some "" → r.magic_number = none) := by
  rcases parsePosition_ok_inv hok with
    ⟨tkv, act, lotv, sym, opv, clv, otv, ctv, pv, swv, cov, tpfv, tpv,
      slv, mgv, h01, h02, h03, h04, h05, h06, h07, h08, h09, h10, h11,
      h12, h13, h14, h15, h16, h17, h18, h19, h20, h21, h22, h23, h24,
      h25, h26, h27, h28, h29, h30, hrest⟩
  refine ⟨fun h0 => ?_, fun h0 => ?_, fun h0 => ?_, fun h0 => ?_,
    fun h0 => ?_, fun h0 => ?_, fun h0 => ?_, fun h0 => ?_⟩
  · rw [Option.some.inj (h05.symm.trans h0)] at h06
    exact truthyFloat_empty_ok h06
  · rw [Option.some.inj (h09.symm.trans h0)] at h10
    exact truthyFloat_empty_ok h10
  · rw [Option.some.inj (h11.symm.trans h0)] at h12
    exact truthyFloat_empty_ok h12
  · rw [Option.some.inj (h17.symm.trans h0)] at h18
    exact truthyFloat_empty_ok h18
  · rw [Option.some.inj (h19.symm.trans h0)] at h20
    exact truthyFloat_empty_ok h20
  · rw [Option.some.inj (h21.symm.trans h0)] at h22
    exact truthyFloat_empty_ok h22
  · rw [Option.some.inj (h23.symm.trans h0)] at h24
    exact truthyFloat_empty_ok h24
  · rw [Option.some.inj (h29.symm.trans h0)] at h30
    exact truthyInt_empty_ok h30

/-- A non-empty, non-parseable numeric field (here: lots) never yields an
emitted record: `float()` raises and the position is not normalized. -/
theorem parsePosition_garbage_fails (E : Ext) (c : UnitCtx) (s : Summary)
    (item : Entry) (v : String) (hv : item.position_lots = some v)
    (hne : v ≠ "") (hp : pyFloat? v = none) :
    ∀ r, parsePosition E c s item ≠ .ok r := by
  intro r hok
  rcases parsePosition_ok_inv hok with
    ⟨tkv, act, lotv, sym, opv, clv, otv, ctv, pv, swv, cov, tpfv, tpv,
      slv, mgv, h01, h02, h03, h04, h05, h06, hrest⟩
  rw [Option.some.inj (h05.symm.trans hv)] at h06
  rw [truthyFloat, if_neg hne, pyFloatE, hp] at h06
  exact Except.noConfusion h06

/-! ### CSV frame lemmas -/

theorem dedupeByHash_eq_spec (l : List Row) : dedupeByHash l = dedupeSpec l := by
  rw [dedupeByHash, dedupeGo_eq_spec]
  congr 1
  apply List.filter_eq_self.mpr
  intro a _
  simp

theorem mem_dedupeByHash {x : Row} {l : List Row}
    (h : x ∈ dedupeByHash l) : x ∈ l :=
  mem_dedupeSpec l (dedupeByHash_eq_spec l ▸ h)

theorem lookup_mem {r : Row} {c : String} {v : Val}
    (h : r.lookup c = some v) : (c, v) ∈ r := by
  induction r with
  | nil => exact absurd h (by simp)
  | cons p rest ih =>
      rcases p with ⟨k, w⟩
      by_cases hk : k = c
      · subst hk
        simp only [List.lookup, beq_self_eq_true] at h
        have hw : w = v := by simpa using h
        exact hw ▸ List.mem_cons_self _ _
      · have hck : (c == k) = false := by simp [Ne.symm hk]
        simp only [List.lookup, hck] at h
        exact List.mem_cons_of_mem _ (ih h)

theorem lookup_mapRow_self (r : Row) (c : String) (f : Val → Val) :
    (r.map (fun p => if p.1 = c then (p.1, f p.2) else p)).lookup c =
      (r.lookup c).map f := by
  induction r with
  | nil => rfl
  | cons p rest ih =>
      rcases p with ⟨k, w⟩
      by_cases hk : k = c
      · subst hk
        simp only [List.map_cons, if_true]
        simp [List.lookup]
      · have hck : (c == k) = false := by simp [Ne.symm hk]
        simp only [List.map_cons]
        rw [if_neg hk]
        simp only [List.lookup, hck]
        exact ih

theorem lookup_mapRow_ne (r : Row) (c c' : String) (f : Val → Val)
    (h : c' ≠ c) :
    (r.map (fun p => if p.1 = c then (p.1, f p.2) else p)).lookup c' =
      r.lookup c' := by
  induction r with
  | nil => rfl
  | cons p rest ih =>
      rcases p with ⟨k, w⟩
      by_cases hk : k = c
      · subst hk
        have hck : (c' == k) = false := by simp [h]
        simp only [List.map_cons, if_true]
        simp only [List.lookup, hck]
        exact ih
      · simp only [List.map_cons]
        rw [if_neg hk]
        by_cases hb : k = c'
        · subst hb
          simp [List.lookup]
        · have hck : (c' == k) = false := by simp [Ne.symm hb]
          simp only [List.lookup, hck]
          exact ih

theorem lookup_rowSet_ne (r : Row) (g c : String) (v : Val) (h : c ≠ g) :
    (rowSet r g v).lookup c = r.lookup c := by
  have hcg : (c == g) = false := by simp [h]
  induction r with
  | nil => simp [rowSet, List.lookup, hcg]
  | cons p rest ih =>
      rcases p with ⟨k, w⟩
      by_cases hp : k = g
      · have hck : (c == k) = false := by rw [hp]; exact hcg
        have hdrop : (((k, w) : String × Val) :: rest).filter
            (fun p => p.1 ≠ g) = rest.filter (fun p => p.1 ≠ g) := by
          rw [List.filter_cons, if_neg (by simp [hp])]
        rw [rowSet, hdrop, List.lookup, hck]
        rw [rowSet] at ih
        exact ih
      · have hkeep : (((k, w) : String × Val) :: rest).filter
            (fun p => p.1 ≠ g) = (k, w) :: rest.filter (fun p => p.1 ≠ g) := by
          rw [List.filter_cons, if_pos (by simp [hp])]
        rw [rowSet, hkeep, List.cons_append]
        by_cases hb : k = c
        · subst hb
          simp [List.lookup]
        · have hck : (c == k) = false := by simp [Ne.symm hb]
          rw [List.lookup, hck, List.lookup, hck]
          rw [rowSet] at ih
          exact ih

theorem getItem_ok {r : Row} {c : String} {v : Val}
    (h : getItem r c = .ok v) : r.lookup c = some v := by
  unfold getItem at h
  cases hm : r.lookup c with
  | some w => rw [hm] at h; exact congrArg some (Except.ok.inj h)
  | none => rw [hm] at h; exact absurd h (by simp)

/-! ### Column content after numeric coercion -/

/-- Column `c` of a row set holds only numeric-or-null cells. -/
def colOk (rows : List Row) (c : String) : Prop :=
  ∀ r ∈ rows, ∀ v, r.lookup c = some v → numOrNull v = true

theorem numOrNull_toNumericCoerce (v : Val) :
    numOrNull (toNumericCoerce v) = true := by
  cases v with
  | null => rfl
  | num q => rfl
  | str s =>
      simp only [toNumericCoerce]
      cases h : pyFloat? s <;> simp [numOrNull, h]

theorem colOk_mapCol_self (df : DF) (c : String) :
    colOk (df.mapCol c toNumericCoerce).rows c := by
  intro r hr v hv
  simp only [DF.mapCol] at hr
  rcases List.mem_map.mp hr with ⟨r0, _, rfl⟩
  rw [lookup_mapRow_self] at hv
  rcases Option.map_eq_some'.mp hv with ⟨w, _, hw⟩
  rw [← hw]
  exact numOrNull_toNumericCoerce w

theorem colOk_mapCol_other (df : DF) (c c' : String) (f : Val → Val)
    (hne : c ≠ c') (hC : colOk df.rows c) : colOk (df.mapCol c' f).rows c := by
  intro r hr v hv
  simp only [DF.mapCol] at hr
  rcases List.mem_map.mp hr with ⟨r0, hr0, rfl⟩
  rw [lookup_mapRow_ne r0 c' c f hne] at hv
  exact hC r0 hr0 v hv

theorem colOk_of_not_contains {d : DF} (hwf : DFwf d) {c : String}
    (hc : ¬ (d.cols.contains c = true)) : colOk d.rows c := by
  intro r hr v hv
  exact absurd (by simpa using hwf r hr (c, v) (lookup_mem hv)) hc

theorem colOk_coerceStep (d : DF) (c c' : String) (h : colOk d.rows c) :
    colOk (coerceStep d c').rows c := by
  unfold coerceStep
  by_cases hcont : d.cols.contains c' = true
  · rw [if_pos hcont]
    by_cases hcc : c = c'
    · subst hcc; exact colOk_mapCol_self d c
    · exact colOk_mapCol_other d c c' _ hcc h
  · rw [if_neg hcont]; exact h

theorem colOk_coerceList_pres (cs : List String) (d : DF) (c : String)
    (h : colOk d.rows c) : colOk (coerceList cs d).rows c := by
  induction cs generalizing d with
  | nil => exact h
  | cons c' cs ih =>
      simp only [coerceList, List.foldl_cons]
      exact ih _ (colOk_coerceStep d c c' h)

theorem DFwf_setCol (d : DF) (c : String) (v : Val) (h : DFwf d) :
    DFwf (d.setCol c v) := by
  intro r hr p hp
  simp only [DF.setCol] at hr ⊢
  rcases List.mem_map.mp hr with ⟨r0, hr0, rfl⟩
  rw [rowSet] at hp
  rcases List.mem_append.mp hp with hp | hp
  · have hin := h r0 hr0 p (List.mem_of_mem_filter hp)
    by_cases hcont : d.cols.contains c = true
    · rw [if_pos hcont]; exact hin
    · rw [if_neg hcont]; exact List.mem_append_left _ hin
  · have hpc : p = (c, v) := by simpa using hp
    subst hpc
    by_cases hcont : d.cols.contains c = true
    · rw [if_pos hcont]; simpa using hcont
    · rw [if_neg hcont]; exact List.mem_append_right _ (by simp)

theorem DFwf_rename (d : DF) (m : List (String × String)) (h : DFwf d) :
    DFwf (d.rename m) := by
  intro r hr p hp
  simp only [DF.rename] at hr ⊢
  rcases List.mem_map.mp hr with ⟨r0, hr0, rfl⟩
  rcases List.mem_map.mp hp with ⟨p0, hp0, rfl⟩
  exact List.mem_map.mpr ⟨p0.1, h r0 hr0 p0 hp0, rfl⟩

theorem DFwf_mapCol (d : DF) (c : String) (f : Val → Val) (h : DFwf d) :
    DFwf (d.mapCol c f) := by
  intro r hr p hp
  simp only [DF.mapCol] at hr ⊢
  rcases List.mem_map.mp hr with ⟨r0, hr0, rfl⟩
  rcases List.mem_map.mp hp with ⟨p0, hp0, rfl⟩
  by_cases hk : p0.1 = c
  · rw [if_pos hk]
    exact h r0 hr0 p0 hp0
  · rw [if_neg hk]
    exact h r0 hr0 p0 hp0

theorem DFwf_timestampStep (E : Ext) (d : DF) (h : DFwf d) :
    DFwf (timestampStep E d) := by
  unfold timestampStep
  by_cases hcont : d.cols.contains "timestamp" = true
  · rw [if_pos hcont]; exact DFwf_mapCol d _ _ h
  · rw [if_neg hcont]; exact h

theorem DFwf_csvPrepared (E : Ext) (name : String) (df : DF) (h : DFwf df) :
    DFwf (csvPrepared E name df) :=
  DFwf_timestampStep E _
    (DFwf_rename _ renameMap (DFwf_setCol df "account_id" _ h))

theorem DFwf_coerceStep (d : DF) (c : String) (h : DFwf d) :
    DFwf (coerceStep d c) := by
  unfold coerceStep
  by_cases hcont : d.cols.contains c = true
  · rw [if_pos hcont]; exact DFwf_mapCol d _ _ h
  · rw [if_neg hcont]; exact h

theorem colOk_coerceList_mem (cs : List String) (d : DF) (c : String)
    (hc : c ∈ cs) (hwf : DFwf d) : colOk (coerceList cs d).rows c := by
  induction cs generalizing d with
  | nil => exact absurd hc (List.not_mem_nil c)
  | cons c' cs ih =>
      simp only [coerceList, List.foldl_cons]
      rcases List.mem_cons.mp hc with hceq | hmem
      · subst hceq
        have hstep : colOk (coerceStep d c).rows c := by
          unfold coerceStep
          by_cases hcont : d.cols.contains c = true
          · rw [if_pos hcont]; exact colOk_mapCol_self d c
          · rw [if_neg hcont]; exact colOk_of_not_contains hwf hcont
        exact colOk_coerceList_pres cs _ c hstep
      · exact ih _ hmem (DFwf_coerceStep d c' hwf)

theorem colOk_csvCoerced (E : Ext) (name : String) (df : DF) (c : String)
    (hc : c ∈ numericCols) (hwf : DFwf df) :
    colOk (csvCoerced E name df).rows c := by
  unfold csvCoerced coerceNumeric
  exact colOk_coerceList_mem numericCols _ c hc (DFwf_csvPrepared E name df hwf)

/-! ### Inversion of the CSV writer tuples -/

theorem buildVal_ok_inv {r : Row} {t : CsvTuple} (h : buildVal r = .ok t) :
    ∃ tkv, r.lookup "Ticket" = some tkv ∧ pyIntOfVal tkv = .ok t.ticket ∧
      r.lookup "entry_price" = some t.entry_price ∧
      r.lookup "exit_price" = some t.exit_price ∧
      r.lookup "pnl" = some t.pnl ∧
      r.lookup "lot_size" = some t.lot_size ∧
      t.net_profit = getDefault r "net_profit" ∧
      t.mae = getDefault r "mae" ∧
      t.mfe = getDefault r "mfe" ∧
      t.pips = getDefault r "pips" ∧
      t.tp = getDefault r "tp" ∧
      t.sl = getDefault r "sl" ∧
      t.trade_duration_hours = getDefault r "trade_duration_hours" := by
  unfold buildVal at h
  obtain ⟨tkv, htkv, h⟩ := except_bind_ok h
  obtain ⟨tk, htk, h⟩ := except_bind_ok h
  obtain ⟨aid, haid, h⟩ := except_bind_ok h
  obtain ⟨sym, hsym, h⟩ := except_bind_ok h
  obtain ⟨tt, htt, h⟩ := except_bind_ok h
  obtain ⟨ep, hep, h⟩ := except_bind_ok h
  obtain ⟨xp, hxp, h⟩ := except_bind_ok h
  obtain ⟨ts, hts, h⟩ := except_bind_ok h
  obtain ⟨ls, hls, h⟩ := except_bind_ok h
  obtain ⟨pn, hpn, h⟩ := except_bind_ok h
  obtain ⟨g1, hg1, h⟩ := except_bind_ok h
  obtain ⟨g2, hg2, h⟩ := except_bind_ok h
  obtain ⟨g3, hg3, h⟩ := except_bind_ok h
  obtain ⟨g4, hg4, h⟩ := except_bind_ok h
  obtain ⟨g5, hg5, h⟩ := except_bind_ok h
  obtain ⟨g6, hg6, h⟩ := except_bind_ok h
  have hist := Except.ok.inj h
  subst hist
  exact ⟨tkv, getItem_ok htkv, htk, getItem_ok hep, getItem_ok hxp,
    getItem_ok hpn, getItem_ok hls, rfl, rfl, rfl, rfl, rfl, rfl, rfl⟩

theorem buildVals_ok_mem :
    ∀ {rows : List Row} {vals : List CsvTuple},
      buildVals rows = .ok vals → ∀ t ∈ vals, ∃ r ∈ rows, buildVal r = .ok t := by
  intro rows
  induction rows with
  | nil =>
      intro vals h t ht
      have hv : vals = [] := (Except.ok.inj h).symm
      subst hv
      exact absurd ht (List.not_mem_nil t)
  | cons r rest ih =>
      intro vals h t ht
      simp only [buildVals] at h
      obtain ⟨t0, ht0, h⟩ := except_bind_ok h
      obtain ⟨ts, hts, h⟩ := except_bind_ok h
      have hv : vals = t0 :: ts := (Except.ok.inj h).symm
      subst hv
      rcases List.mem_cons.mp ht with rfl | hmem
      · exact ⟨r, List.mem_cons_self _ _, ht0⟩
      · rcases ih hts t hmem with ⟨r0, hr0, hb⟩
        exact ⟨r0, List.mem_cons_of_mem _ hr0, hb⟩

theorem buildVal_bad_ticket {r : Row}
    (h : r.lookup "Ticket" = none ∨
      ∃ v, r.lookup "Ticket" = some v ∧ ∃ e, pyIntOfVal v = .error e) :
    ∃ e, buildVal r = .error e := by
  rcases h with hnone | ⟨v, hv, e, he⟩
  · refine ⟨.keyError, ?_⟩
    have hgi : getItem r "Ticket" = .error .keyError := by
      unfold getItem; rw [hnone]
    unfold buildVal
    rw [hgi]
    rfl
  · refine ⟨e, ?_⟩
    have hgi : getItem r "Ticket" = .ok v := by
      unfold getItem; rw [hv]
    unfold buildVal
    rw [hgi]
    simp only [Bind.bind, Except.bind]
    rw [he]

theorem buildVals_bad :
    ∀ {rows : List Row},
      (∃ r ∈ rows, r.lookup "Ticket" = none ∨
        ∃ v, r.lookup "Ticket" = some v ∧ ∃ e, pyIntOfVal v = .error e) →
      ∃ e, buildVals rows = .error e := by
  intro rows
  induction rows with
  | nil =>
      intro hbad
      rcases hbad with ⟨r, hr, _⟩
      exact absurd hr (List.not_mem_nil r)
  | cons r rest ih =>
      intro hbad
      rcases hbad with ⟨r0, hr0, hb⟩
      rcases List.mem_cons.mp hr0 with rfl | hmem
      · rcases buildVal_bad_ticket hb with ⟨e, he⟩
        refine ⟨e, ?_⟩
        simp only [buildVals]
        rw [he]
        rfl
      · cases hbv : buildVal r with
        | error e =>
            refine ⟨e, ?_⟩
            simp only [buildVals]
            rw [hbv]
            rfl
        | ok t =>
            rcases ih ⟨r0, hmem, hb⟩ with ⟨e, he⟩
            refine ⟨e, ?_⟩
            simp only [buildVals]
            rw [hbv]
            simp only [Bind.bind, Except.bind]
            rw [he]

/-! ### Shape of a `process_blob` run -/

theorem setGptDefaults_err (df : DF) :
    setGptDefaults df = .error .attributeError := rfl

theorem csvTryBody_eq (E : Ext) (name : String) (df : DF) :
    csvTryBody E name df =
      ⟨0, [], false, false, .failedLogged .attributeError⟩ := rfl

theorem processBlob_missing (E : Ext) (name : String) (df : DF)
    (h : requiredCols.all
      (fun c => (csvPrepared E name df).cols.contains c) = false) :
    processBlob E name df = ⟨1, [], false, false, .missingCols⟩ := by
  rw [processBlob, h]
  rfl

theorem processBlob_shape (E : Ext) (name : String) (df : DF) :
    processBlob E name df = ⟨1, [], false, false, .missingCols⟩ ∨
    processBlob E name df =
      ⟨0, [], false, false, .failedLogged .attributeError⟩ := by
  cases hreq : requiredCols.all
      (fun c => (csvPrepared E name df).cols.contains c) with
  | false => exact Or.inl (processBlob_missing E name df hreq)
  | true =>
      refine Or.inr ?_
      rw [processBlob, hreq]
      exact csvTryBody_eq E name df

/-! ### Shape of a `process_account` run -/

theorem tryBodyResult_connClosed_iff (st : WalkSt) (err : Option PyErr) :
    ((tryBodyResult st err).connClosed = true ↔
      (tryBodyResult st err).outcome = .success) := by
  cases err <;> simp [tryBodyResult]

theorem processAccount_ok_of_pct (E : Ext) (bsz : ℕ) (row : AccountRow)
    (feed : List Entry) {w x y : Option ℚ}
    (h1 : to_pct row.tradeWin = .ok w) (h2 : to_pct row.totalReturn = .ok x)
    (h3 : to_pct row.tradesPerDay = .ok y) :
    ∃ res, processAccount E bsz row feed = .ok res := by
  refine ⟨tryBodyResult
      (walkEntries E bsz ⟨row.username, row.account_url, row.rss_url, w, x, y⟩
        feed ⟨⟨none, none, none, none, none⟩, [], []⟩).1
      (walkEntries E bsz ⟨row.username, row.account_url, row.rss_url, w, x, y⟩
        feed ⟨⟨none, none, none, none, none⟩, [], []⟩).2, ?_⟩
  unfold processAccount
  rw [h1, h2, h3]
  rfl

theorem processAccount_ok_inv {E : Ext} {bsz : ℕ} {row : AccountRow}
    {feed : List Entry} {res : AccountResult}
    (h : processAccount E bsz row feed = .ok res) :
    ∃ st err, res = tryBodyResult st err := by
  unfold processAccount at h
  obtain ⟨w, hw, h⟩ := except_bind_ok h
  obtain ⟨x, hx, h⟩ := except_bind_ok h
  obtain ⟨y, hy, h⟩ := except_bind_ok h
  exact ⟨_, _, (Except.ok.inj h).symm⟩

/-! ### Claim theorems for both pipelines -/

/-- C3 (amended): every exception raised inside a unit's `try` block is
caught there and converted to a per-unit outcome — once the pre-`try`
percent parsing succeeds, `process_account` never raises; the schedulers
always yield one future per unit (no unit outcome can abort them); and
every CSV unit terminates in one of exactly two caught per-unit
outcomes: skipped for missing columns, or failed-and-logged with the
`AttributeError` the GPT-placeholder loop raises (pandas frames have no
`setdefault`), the connection never acquired.  (The pre-`try` percent
parsing itself can raise uncaught — see the counterexample.) -/
theorem C3_unit_errors_isolated :
    (∀ (E : Ext) (bsz : ℕ) (row : AccountRow) (feed : List Entry)
        (w x y : Option ℚ),
      to_pct row.tradeWin = .ok w → to_pct row.totalReturn = .ok x →
      to_pct row.tradesPerDay = .ok y →
      ∃ res, processAccount E bsz row feed = .ok res) ∧
    (∀ (E : Ext) (bsz : ℕ) (rows : List (AccountRow × List Entry)),
      (runAllRss E bsz rows).length = rows.length) ∧
    (∀ (E : Ext) (units : List (String × DF)),
      (runAllCsv E units).length = units.length) ∧
    (∀ (E : Ext) (name : String) (df : DF),
      processBlob E name df = ⟨1, [], false, false, .missingCols⟩ ∨
      processBlob E name df =
        ⟨0, [], false, false, .failedLogged .attributeError⟩) := by
  refine ⟨?_, ?_, ?_, ?_⟩
  · intro E bsz row feed w x y h1 h2 h3
    exact processAccount_ok_of_pct E bsz row feed h1 h2 h3
  · intro E bsz rows
    exact List.length_map _ _
  · intro E units
    exact List.length_map _ _
  · intro E name df
    exact processBlob_shape E name df

/-- C9 (amended): the store connection is released exactly on the
successful exit path; a unit that fails after acquiring its connection
leaves it open (there is no `finally` in either pipeline), and a CSV
unit never closes one — it is skipped for missing columns or fails at
the GPT-placeholder loop before `get_db_conn`. -/
theorem C9_connection_released_iff_success :
    (∀ (E : Ext) (bsz : ℕ) (row : AccountRow) (feed : List Entry)
        (res : AccountResult),
      processAccount E bsz row feed = .ok res →
      (res.connClosed = true ↔ res.outcome = .success)) ∧
    (∀ (E : Ext) (name : String) (df : DF),
      ((processBlob E name df).connClosed = true ↔
        ∃ n, (processBlob E name df).outcome = .finished n)) := by
  constructor
  · intro E bsz row feed res h
    rcases processAccount_ok_inv h with ⟨st, err, rfl⟩
    exact tryBodyResult_connClosed_iff st err
  · intro E name df
    rcases processBlob_shape E name df with h | h <;> rw [h] <;> simp

/-- C8: a CSV work unit whose prepared frame misses any required column
is skipped with exactly one warning, zero records and zero writes (the
connection is never even acquired), and the scheduler still processes
every other unit. -/
theorem C8_missing_required_columns :
    (∀ (E : Ext) (name : String) (df : DF),
      requiredCols.all (fun c => (csvPrepared E name df).cols.contains c)
        = false →
      processBlob E name df = ⟨1, [], false, false, .missingCols⟩) ∧
    (∀ (E : Ext) (units : List (String × DF)),
      (runAllCsv E units).length = units.length) :=
  ⟨processBlob_missing, fun _ _ => List.length_map _ _⟩

/-- C6: every tuple the CSV writer receives carries a ticket obtained by
a successful integer coercion of a present raw `Ticket` cell; a batch
containing a row with a missing or non-coercible ticket never reaches
`executemany` (the unit aborts first); and every RSS trade row's ticket
comes from a successful `int()` of a present `position_ticket`. -/
theorem C6_ticket_coercible_or_rejected :
    (∀ (rows : List Row) (vals : List CsvTuple),
      buildVals rows = .ok vals →
      ∀ t ∈ vals, ∃ r ∈ rows, ∃ v, r.lookup "Ticket" = some v ∧
        pyIntOfVal v = .ok t.ticket) ∧
    (∀ rows : List Row,
      (∃ r ∈ rows, r.lookup "Ticket" = none ∨
        ∃ v, r.lookup "Ticket" = some v ∧ ∃ e, pyIntOfVal v = .error e) →
      ∃ e, buildVals rows = .error e) ∧
    (∀ (E : Ext) (c : UnitCtx) (s : Summary) (item : Entry) (r : TradeRow),
      parsePosition E c s item = .ok r →
      ∃ v, item.position_ticket = some v ∧ pyInt? v = some r.ticket) := by
  refine ⟨?_, fun rows h => buildVals_bad h, ?_⟩
  · intro rows vals h t ht
    rcases buildVals_ok_mem h t ht with ⟨r, hr, hb⟩
    rcases buildVal_ok_inv hb with ⟨tkv, h1, h2, _⟩
    exact ⟨r, hr, tkv, h1, h2⟩
  · intro E c s item r hok
    rcases parsePosition_ok_inv hok with ⟨tkv, act, lotv, sym, opv, clv,
      otv, ctv, pv, swv, cov, tpfv, tpv, slv, mgv, h01, h02, hrest⟩
    exact ⟨tkv, h01, h02⟩

/-- C1 (amended): in the CSV pipeline the numeric-coercion pass leaves
every column of the fixed coercion list numeric-or-null — garbage cells
become null; `lot_size` is not on that list and is not covered — but no
record is ever emitted: past the required-columns check `process_blob`
fails at the GPT-placeholder loop (pandas frames have no `setdefault`),
so nothing ever reaches the writer; in the RSS pipeline a non-empty,
non-numeric value in a numeric field (e.g. lots) raises and fails the
unit instead of normalizing to null. -/
theorem C1_numeric_fields_null_or_numeric :
    (∀ (E : Ext) (name : String) (df : DF), DFwf df →
      ∀ c ∈ numericCols, ∀ r ∈ (csvCoerced E name df).rows,
        ∀ v, r.lookup c = some v → numOrNull v = true) ∧
    (∀ (E : Ext) (name : String) (df : DF),
      (processBlob E name df).written = []) ∧
    (∀ (E : Ext) (c : UnitCtx) (s : Summary) (item : Entry) (v : String),
      item.position_lots = some v → v ≠ "" → pyFloat? v = none →
      ∀ r, parsePosition E c s item ≠ .ok r) := by
  refine ⟨?_, ?_, parsePosition_garbage_fails⟩
  · intro E name df hwf c hc r hr v hv
    exact colOk_csvCoerced E name df c hc hwf r hr v hv
  · intro E name df
    rcases processBlob_shape E name df with h | h <;> rw [h]

instance (df : DF) : Decidable (DFwf df) := by
  unfold DFwf
  infer_instance

/-! ### Concrete fixtures for witnesses and counterexamples -/

/-- Date collaborators that parse nothing — legal external behaviour. -/
def E0 : Ext := ⟨fun _ => none, fun _ => none⟩

/-- A roster row with all-null percent fields. -/
def sampleRow : AccountRow := ⟨.str "a1", .str "url", .str "rss", .null, .null, .null⟩

/-- A roster row whose `trade win` cell is non-numeric garbage. -/
def badPctRow : AccountRow :=
  ⟨.str "a1", .str "url", .str "rss", .str "abc", .null, .null⟩

/-- A unit context with all-null percent fields. -/
def ctx0 : UnitCtx := ⟨.str "a1", .str "url", .str "rss", none, none, none⟩

/-- The all-null running summary (before any summary entry). -/
def sum0 : Summary := ⟨none, none, none, none, none⟩

/-- A position entry whose `lots` field is non-numeric garbage. -/
def entryGarbageLots : Entry :=
  { position_ticket := some "1", position_action := some "buy",
    position_lots := some "abc", position_symbol := some "EURUSD" }

/-- A complete position entry except for its absent take-profit field. -/
def entryTpAbsent : Entry :=
  { position_ticket := some "2", position_action := some "sell",
    position_lots := some "1", position_symbol := some "X",
    position_openprice := some "0", position_closeprice := some "1",
    position_opentime := some "x", position_closetime := some "x",
    position_profit := some "1", position_swap := some "1",
    position_commission := some "1", position_totalprofit := some "1",
    position_sl := some "0", position_magicnumber := some "3" }

/-- A complete position entry exercising the `"0"`-sentinel (TP/SL and
open price) and the empty-string (everything else) rules. -/
def entryAllSet : Entry :=
  { position_ticket := some "7", position_action := some "buy",
    position_lots := some "", position_symbol := some "EURUSD",
    position_openprice := some "0", position_closeprice := some "",
    position_opentime := some "x", position_closetime := some "x",
    position_profit := some "", position_swap := some "",
    position_commission := some "", position_totalprofit := some "",
    position_tp := some "0", position_sl := some "0",
    position_magicnumber := some "" }

/-- The trade row `entryAllSet` normalizes to under `E0`/`ctx0`/`sum0`. -/
def rowAllSet : TradeRow :=
  ⟨.str "a1", .str "url", .str "rss", none, none, none, none, none, none,
    none, none, 7, "buy", none, "EURUSD", some 0, none, none, none, none,
    none, none, none, none, none, none, none, none, none, none, none⟩

/-- A summary entry whose balance is non-numeric garbage. -/
def entryBadBalance : Entry := { account_balance := some "x" }

/-- A one-row CSV frame with all required source columns. -/
def csvDf : DF :=
  ⟨["Ticket", "Symbol", "Buy/sell", "Open price", "Close price", "Lots",
    "Profit", "Open time"],
   [[("Ticket", .str "55"), ("Symbol", .str "EURUSD"),
     ("Buy/sell", .str "buy"), ("Open price", .str "1.10"),
     ("Close price", .str "1.12"), ("Lots", .str "1"),
     ("Profit", .str "200"), ("Open time", .str "x")]]⟩

/-- Two dedupe rows with distinct identity keys. -/
def rowsAB : List Row :=
  [[("account_id", .str "a"), ("Ticket", .str "1"), ("timestamp", .str "t")],
   [("account_id", .str "a"), ("Ticket", .str "2"), ("timestamp", .str "t")]]

/-- A writer row whose raw ticket is not integer-coercible. -/
def badTicketRow : Row := [("Ticket", .str "abc")]

/-- An empty CSV frame (every required column absent). -/
def dfEmpty : DF := ⟨[], []⟩

/-- The observable result of a trade-free successful RSS unit. -/
def resSuccess : AccountResult := ⟨true, true, true, [], .success⟩

/-! ### Witnesses and counterexamples -/

/-- C1 counterexample: non-numeric garbage in the `lots` field makes the
unit fail (caught and logged, zero batches executed) — it does not
normalize to null as the claim states. -/
theorem C1_counterexample :
    processAccount E0 100 sampleRow [entryGarbageLots] =
      .ok ⟨true, false, true, [], .failedLogged .valueError⟩ := by decide

/-- C1 witness: on a concrete frame the coerced `pnl` column is
numeric-or-null, the unit writes nothing, and the garbage-lots RSS entry
yields no record. -/
theorem C1_witness :
    (∀ r ∈ (csvCoerced E0 "testcsvs/1001.csv" csvDf).rows,
      ∀ v, r.lookup "pnl" = some v → numOrNull v = true) ∧
    (processBlob E0 "testcsvs/1001.csv" csvDf).written = [] ∧
    parsePosition E0 ctx0 sum0 entryGarbageLots ≠ .ok rowAllSet :=
  ⟨C1_numeric_fields_null_or_numeric.1 E0 "testcsvs/1001.csv" csvDf
      (by decide) "pnl" (by decide),
    C1_numeric_fields_null_or_numeric.2.1 E0 "testcsvs/1001.csv" csvDf,
    C1_numeric_fields_null_or_numeric.2.2 E0 ctx0 sum0 entryGarbageLots
      "abc" rfl (by decide) (by decide) rowAllSet⟩

/-- C3 counterexample: garbage in a pre-`try` percent field escapes the
unit processor as an uncaught exception — it is neither caught nor
logged there. -/
theorem C3_counterexample :
    processAccount E0 100 badPctRow [] = .error .valueError := by decide

/-- C3 witness: with parseable percent fields the unit never raises. -/
theorem C3_witness : ∃ res, processAccount E0 100 sampleRow [] = .ok res :=
  C3_unit_errors_isolated.1 E0 100 sampleRow [] none none none
    (by decide) (by decide) (by decide)

/-- C4 witness: a concrete one-position unit completes successfully and
its executed batches are the batching of the one-trade sequence, whose
net store effect equals the single upsert. -/
theorem C4_witness :
    ∃ ts : List TradeRow,
      (AccountResult.mk true true true [[rowAllSet]]
          RssOutcome.success).executed = batchesOf 100 ts ∧
      ∀ st : Store,
        applyBatches st (AccountResult.mk true true true [[rowAllSet]]
            RssOutcome.success).executed = ts.foldl upsertTrade st :=
  C4_batching_preserves_store.2 E0 100 sampleRow [entryAllSet]
    ⟨true, true, true, [[rowAllSet]], RssOutcome.success⟩
    (by decide) (by decide)

/-- C5 witness: dedupe is the identity on a duplicate-free batch. -/
theorem C5_witness : dedupeByHash rowsAB = rowsAB :=
  (C5_dedupe_first_occurrence rowsAB).2.1 (by decide)

/-- C6 witness: a batch holding a non-coercible ticket aborts before the
writer. -/
theorem C6_witness : ∃ e, buildVals [badTicketRow] = .error e :=
  C6_ticket_coercible_or_rejected.2.1 [badTicketRow]
    ⟨badTicketRow, List.mem_cons_self _ _,
      Or.inr ⟨Val.str "abc", by decide, PyErr.valueError, by decide⟩⟩

/-- C7 counterexample: an entry with an absent take-profit attribute
raises `AttributeError` — the field does not normalize to null. -/
theorem C7_counterexample :
    parsePosition E0 ctx0 sum0 entryTpAbsent = .error .attributeError := by
  decide

/-- C7 witness: `"0"` take-profit and stop-loss normalize to null while
the genuine `"0"` open price is kept as zero. -/
theorem C7_witness :
    rowAllSet.take_profit = none ∧ rowAllSet.stop_loss = none ∧
    rowAllSet.open_price = some 0 := by
  have h := C7_tp_sl_zero_rule.1 E0 ctx0 sum0 entryAllSet rowAllSet
    (by decide)
  exact ⟨h.1 rfl, h.2.1 rfl, h.2.2 rfl⟩

/-- C8 witness: an empty frame fails the required-columns check and is
skipped with one warning and zero writes. -/
theorem C8_witness :
    requiredCols.all
      (fun c => (csvPrepared E0 "n.csv" dfEmpty).cols.contains c) = false ∧
    processBlob E0 "n.csv" dfEmpty = ⟨1, [], false, false, .missingCols⟩ :=
  ⟨by decide, C8_missing_required_columns.1 E0 "n.csv" dfEmpty (by decide)⟩

/-- C9 counterexample: a unit failing inside its `try` (garbage account
balance) leaves the acquired connection unreleased. -/
theorem C9_counterexample :
    processAccount E0 100 sampleRow [entryBadBalance] =
      .ok ⟨true, false, true, [], .failedLogged .valueError⟩ := by decide

/-- C9 witness: a successful unit closes its connection. -/
theorem C9_witness :
    resSuccess.connClosed = true ↔ resSuccess.outcome = .success :=
  C9_connection_released_iff_success.1 E0 100 sampleRow [] resSuccess
    (by decide)

/-- C10 witness: empty-string numeric fields of a normalized position are
null. -/
theorem C10_witness :
    rowAllSet.lots = none ∧ rowAllSet.close_price = none ∧
    rowAllSet.magic_number = none := by
  have h := C10_empty_string_fields_null E0 ctx0 sum0 entryAllSet rowAllSet
    (by decide)
  exact ⟨h.1 rfl, h.2.2.1 rfl, h.2.2.2.2.2.2.2 rfl⟩

end FxBlue
